import Mathlib

/-
Verification of the recording/transcription server in src/main.py.

The embedding is a shallow one: the module-level mutable globals
(`recordings`, `current_recording_id`) become a `Store` record that every
handler threads explicitly; byte strings become `List Nat`; timestamps
(`datetime.now()`) become explicit `Nat` parameters; the external
speech-to-text call becomes an `Option String` parameter (`some text` =
the call returned `text`, `none` = it raised); the final WAV write in
`stop_recording` becomes a `Bool` parameter (`false` = `wave.open` raised).
`str(uuid.uuid4())` generates a fresh unique id; we model it by a counter
`nextId` carried in the store, so ids are `Nat`.  Observable side effects
(WebSocket broadcasts, temp-file creation/deletion, the external call, the
final file write) are recorded in an ordered event list `List Ev`, in the
order the Python statements execute them.
-/

set_option autoImplicit false

namespace AiNoteTaker

/-- src/main.py line 23: `SAMPLE_RATE = 16000`. -/
def SAMPLE_RATE : Nat := 16000

/-- src/main.py line 24: `CHANNELS = 1`. -/
def CHANNELS : Nat := 1

/-- src/main.py line 25: `SAMPLE_WIDTH = 2`. -/
def SAMPLE_WIDTH : Nat := 2

/-- src/main.py line 32: `TRANSCRIPTION_CHUNK_SIZE = SAMPLE_RATE * 2 * 3`. -/
def TRANSCRIPTION_CHUNK_SIZE : Nat := SAMPLE_RATE * 2 * 3

/- Named session updates, each the image of one group of Python statements;
they are introduced below, after the `Session` structure. -/

/-- One entry of a recording's `transcripts` list: `{"text": ..., "timestamp": ...}`. -/
structure Transcript where
  text : String
  timestamp : Nat
deriving DecidableEq, Repr

/-- The `status` field of a recording: `"recording"` or `"completed"`. -/
inductive Status where
  | recording
  | completed
deriving DecidableEq, Repr

/-- One value of the `recordings` dict (src/main.py lines 42-49); the
`filename` key is added later by `stop_recording`, so it is an `Option`. -/
structure Session where
  audio_data : List Nat
  transcription_buffer : List Nat
  transcripts : List Transcript
  start_time : Nat
  end_time : Option Nat
  status : Status
  filename : Option String
deriving DecidableEq, Repr

/-- The module-level mutable state: the `recordings` dict (an insertion-ordered
association list, as a Python dict), `current_recording_id`, and the counter
standing in for `uuid.uuid4()` freshness. -/
structure Store where
  recordings : List (Nat × Session)
  current_recording_id : Option Nat
  nextId : Nat
deriving DecidableEq, Repr

/-- The fresh session dict built by `start_recording` (src/main.py lines 42-49). -/
def freshSession (t : Nat) : Session :=
  { audio_data := [], transcription_buffer := [], transcripts := [],
    start_time := t, end_time := none, status := Status.recording, filename := none }

/-- Lines 110-111: extend both `audio_data` and `transcription_buffer`. -/
def appendChunk (recd : Session) (chunk : List Nat) : Session :=
  { recd with
    audio_data := recd.audio_data ++ chunk,
    transcription_buffer := recd.transcription_buffer ++ chunk }

/-- Lines 156-171: append the transcript entry and clear the buffer. -/
def withTranscript (recd : Session) (text : String) (t : Nat) : Session :=
  { recd with
    transcripts := recd.transcripts ++ [{ text := text, timestamp := t }],
    transcription_buffer := [] }

/-- Lines 68-69: set `end_time` and `status = "completed"`. -/
def markStopped (recd : Session) (t : Nat) : Session :=
  { recd with end_time := some t, status := Status.completed }

/-- Line 83: record the final filename. -/
def withFilename (recd : Session) (rid : Nat) : Session :=
  { recd with filename := some ("recording_" ++ toString rid ++ ".wav") }

/-- Python dict assignment `d[k] = v`: replaces the value at an existing key
in place, otherwise appends the new pair at the end. -/
def dictInsert (l : List (Nat × Session)) (k : Nat) (v : Session) : List (Nat × Session) :=
  match l with
  | [] => [(k, v)]
  | (k', v') :: rest => if k' = k then (k, v) :: rest else (k', v') :: dictInsert rest k v

/-- Observable side effects, in execution order. -/
inductive Ev where
  | broadcastStarted (rid : Nat)
  | statusCompleted (rid : Nat)
  | tempCreated (rid : Nat)
  | transcribeAttempt (rid : Nat)
  | broadcastTranscription (rid : Nat) (text : String)
  | tempDeleted (rid : Nat)
  | fileWritten (rid : Nat)
  | broadcastStopped (rid : Nat) (duration : Nat)
  | broadcastAudioUpdate (rid : Nat) (samples : Nat) (duration : Nat)
deriving DecidableEq, Repr

/-- Python `len(audio_data) // SAMPLE_WIDTH` (src/main.py line 121). -/
def samplesOf (a : List Nat) : Nat := a.length / SAMPLE_WIDTH

/-- Python `len(audio_data) // (SAMPLE_WIDTH * SAMPLE_RATE)` (src/main.py
lines 89, 122, 189, 210). -/
def durationOf (a : List Nat) : Nat := a.length / (SAMPLE_WIDTH * SAMPLE_RATE)

/-- src/main.py lines 127-177, `transcribe_chunk(recording_id, force)`.
`result` is the outcome of the external `openai.audio.transcriptions.create`
call: `some text` if it returns, `none` if it raises.  The `force` parameter
of the Python function is never read in its body, so it is omitted.
Early returns when the id is unknown or the buffer is empty happen before the
temp file is written.  Otherwise the temp WAV is created, the external call is
attempted inside `try`, on success the transcript entry is appended, a
`transcription` event is broadcast and the buffer is replaced by a fresh empty
`bytearray()`; on failure the exception is caught and only printed; the
`finally` block removes the temp file on both paths. -/
def transcribe_chunk (st : Store) (rid : Nat) (result : Option String) (t : Nat) :
    Store × List Ev :=
  match st.recordings.lookup rid with
  | none => (st, [])
  | some recd =>
    if recd.transcription_buffer.length = 0 then (st, [])
    else
      match result with
      | some text =>
        ({ st with recordings := dictInsert st.recordings rid (withTranscript recd text t) },
         [Ev.tempCreated rid, Ev.transcribeAttempt rid,
          Ev.broadcastTranscription rid text, Ev.tempDeleted rid])
      | none =>
        (st, [Ev.tempCreated rid, Ev.transcribeAttempt rid, Ev.tempDeleted rid])

/-- src/main.py lines 34-57, `start_recording()`: generates a fresh id, points
`current_recording_id` at it, stores a fresh session dict with empty buffers
and status `"recording"`, broadcasts `recording_started`, and returns
`{"ok": True, "recording_id": recording_id}` (modelled by returning the id). -/
def start_recording (st : Store) (t : Nat) : Store × Nat × List Ev :=
  let recording_id := st.nextId
  ({ recordings := dictInsert st.recordings recording_id (freshSession t),
     current_recording_id := some recording_id,
     nextId := st.nextId + 1 },
   recording_id,
   [Ev.broadcastStarted recording_id])

/-- The JSON dict returned by `stop_recording`. -/
structure StopResp where
  ok : Bool
  recording_id : Option Nat
  error : Option String
deriving DecidableEq, Repr

/-- How `stop_recording` terminates: `ret` returns a JSON dict; `raised` means
an uncaught exception escapes the handler (a `KeyError`, or `wave.open`
failing while writing the final file). -/
inductive StopOutcome where
  | ret (r : StopResp)
  | raised
deriving DecidableEq, Repr

/-- src/main.py lines 59-95, `stop_recording()`.  With no current recording it
returns `{"ok": False, "error": "No active recording"}` untouched.  Otherwise
it sets `end_time` and `status = "completed"` first, then (if the buffer is
non-empty) awaits `transcribe_chunk(..., force=True)`, then writes the final
WAV file (`writeOk = false` models `wave.open`/`writeframes` raising, in which
case the exception propagates: `filename` is not set, `recording_stopped` is
not broadcast and `current_recording_id` is not cleared), sets `filename`,
broadcasts `recording_stopped` with the integer duration, clears the current
pointer and returns `{"ok": True, "recording_id": stopped_id}`. -/
def stop_recording (st : Store) (tr : Option String) (writeOk : Bool) (t : Nat) :
    Store × StopOutcome × List Ev :=
  match st.current_recording_id with
  | none =>
    (st, StopOutcome.ret { ok := false, recording_id := none, error := some "No active recording" }, [])
  | some rid =>
    match st.recordings.lookup rid with
    | none => (st, StopOutcome.raised, [])
    | some recd =>
      let recd1 : Session := markStopped recd t
      let st1 : Store := { st with recordings := dictInsert st.recordings rid recd1 }
      let flushed :=
        if 0 < recd1.transcription_buffer.length then transcribe_chunk st1 rid tr t
        else (st1, [])
      let st2 := flushed.1
      if writeOk then
        match st2.recordings.lookup rid with
        | none => (st2, StopOutcome.raised, Ev.statusCompleted rid :: flushed.2)
        | some recd2 =>
          let recd3 : Session := withFilename recd2 rid
          let st3 : Store :=
            { st2 with recordings := dictInsert st2.recordings rid recd3,
                       current_recording_id := none }
          (st3, StopOutcome.ret { ok := true, recording_id := some rid, error := none },
           Ev.statusCompleted rid ::
             (flushed.2 ++ [Ev.fileWritten rid, Ev.broadcastStopped rid (durationOf recd3.audio_data)]))
      else
        (st2, StopOutcome.raised, Ev.statusCompleted rid :: flushed.2)

/-- How `receive_audio` terminates: `ret true` is `{"ok": True}`; `raised`
models the (unreachable under the store invariant) `KeyError` from
`recordings[current_recording_id]`. -/
inductive AudioOutcome where
  | ret (ok : Bool)
  | raised
deriving DecidableEq, Repr

/-- src/main.py lines 97-125, `receive_audio(data)`.  `chunk` is the already
base64-decoded byte string `base64.b64decode(data["audio"])` (the decode is a
pure external function; only the decoded bytes touch the store).  If no
recording is active, `start_recording` is awaited first.  The decoded chunk is
appended to both `audio_data` and `transcription_buffer`; when the buffer
reaches `TRANSCRIPTION_CHUNK_SIZE` the chunk is transcribed; finally an
`audio_update` event is broadcast with the running sample count and duration
(`transcribe_chunk` never modifies `audio_data`, so the post-append value is
the one the Python alias reads at line 121). -/
def receive_audio (st : Store) (chunk : List Nat) (tr : Option String) (t : Nat) :
    Store × AudioOutcome × List Ev :=
  let started :=
    match st.current_recording_id with
    | none =>
      let s := start_recording st t
      (s.1, s.2.2)
    | some _ => (st, [])
  let st0 := started.1
  match st0.current_recording_id with
  | none => (st0, AudioOutcome.raised, started.2)
  | some rid =>
    match st0.recordings.lookup rid with
    | none => (st0, AudioOutcome.raised, started.2)
    | some recd =>
      let recd1 : Session := appendChunk recd chunk
      let st1 : Store := { st0 with recordings := dictInsert st0.recordings rid recd1 }
      let trans :=
        if TRANSCRIPTION_CHUNK_SIZE ≤ recd1.transcription_buffer.length then
          transcribe_chunk st1 rid tr t
        else (st1, [])
      (trans.1, AudioOutcome.ret true,
       started.2 ++ trans.2 ++
         [Ev.broadcastAudioUpdate rid (samplesOf recd1.audio_data) (durationOf recd1.audio_data)])

/-- One element of the JSON array served by `/recordings` and `/recording/{id}`. -/
structure Summary where
  id : Nat
  start_time : Nat
  end_time : Option Nat
  status : Status
  duration : Nat
  transcripts : List Transcript
  filename : Option String
deriving DecidableEq, Repr

/-- The summary dict built for one recording (src/main.py lines 184-192 and
205-212): `duration` is `len(audio_data) // (SAMPLE_WIDTH * SAMPLE_RATE)`. -/
def summaryOf (rid : Nat) (r : Session) : Summary :=
  { id := rid, start_time := r.start_time, end_time := r.end_time, status := r.status,
    duration := durationOf r.audio_data, transcripts := r.transcripts,
    filename := r.filename }

/-- src/main.py lines 179-196, `list_recordings()`: summaries of all stored
recordings, sorted by start time, newest first. -/
def list_recordings (st : Store) : List Summary :=
  (st.recordings.map (fun p => summaryOf p.1 p.2)).mergeSort
    (fun a b => decide (b.start_time ≤ a.start_time))

/-- src/main.py lines 198-213, `get_recording(recording_id)`: `none` models
the `{"error": "Recording not found"}` reply. -/
def get_recording (st : Store) (rid : Nat) : Option Summary :=
  match st.recordings.lookup rid with
  | none => none
  | some r => some (summaryOf rid r)

/-- The per-subscriber send loop of `broadcast_status` (src/main.py lines
238-243): iterates over the live set, `await ws.send_json(message)` inside
`try`, collecting into `disconnected` the subscribers whose send raised.
`sendOk w = true` means the send to `w` succeeds.  Returns (delivered,
disconnected). -/
def sendAll (subs : List Nat) (sendOk : Nat → Bool) : List Nat × List Nat :=
  match subs with
  | [] => ([], [])
  | w :: rest =>
    let r := sendAll rest sendOk
    if sendOk w then (w :: r.1, r.2) else (r.1, w :: r.2)

/-- The live-set membership after the pruning loop and the two delivery lists. -/
structure BroadcastResult where
  delivered : List Nat
  disconnected : List Nat
  remaining : List Nat
deriving DecidableEq, Repr

/-- src/main.py lines 236-246, `broadcast_status(message)`: sends to every
subscriber (failures collected, not propagated), then discards every failed
subscriber from the live set.  The function itself never raises. -/
def broadcast_status (subs : List Nat) (sendOk : Nat → Bool) : BroadcastResult :=
  let r := sendAll subs sendOk
  { delivered := r.1, disconnected := r.2,
    remaining := subs.filter (fun w => ¬ w ∈ r.2) }

/-- One externally-triggered operation on the store, carrying the outcomes of
the external calls it makes: `audio` and `stop` carry the speech-to-text
outcome used if a transcription is attempted, `stop` also carries whether the
final WAV write succeeds. -/
inductive Op where
  | start (t : Nat)
  | audio (chunk : List Nat) (tr : Option String) (t : Nat)
  | stop (tr : Option String) (writeOk : Bool) (t : Nat)
deriving DecidableEq, Repr

/-- The store after one operation. -/
def stepOp (st : Store) : Op → Store
  | Op.start t => (start_recording st t).1
  | Op.audio chunk tr t => (receive_audio st chunk tr t).1
  | Op.stop tr w t => (stop_recording st tr w t).1

/-- The store after a sequence of operations. -/
def runOps (st : Store) : List Op → Store
  | [] => st
  | op :: ops => runOps (stepOp st op) ops

/-- The state at module load: empty dict, no current recording. -/
def initialStore : Store :=
  { recordings := [], current_recording_id := none, nextId := 0 }

/-- An operation whose final WAV write (if any) succeeds. -/
def goodOp : Op → Prop
  | Op.stop _ writeOk _ => writeOk = true
  | _ => True

/-- If a recording is active, it is stored and has status `"recording"`. -/
def CurrentActive (st : Store) : Prop :=
  ∀ rid, st.current_recording_id = some rid →
    ∃ r, st.recordings.lookup rid = some r ∧ r.status = Status.recording

/-- Every stored key is below the fresh-id counter. -/
def KeysBounded (st : Store) : Prop :=
  ∀ p, p ∈ st.recordings → p.1 < st.nextId

/-- The store invariant maintained by operations whose file writes succeed. -/
def Inv (st : Store) : Prop := CurrentActive st ∧ KeysBounded st

/-- Index of the first occurrence of an event in a trace. -/
def idxOfEv (e : Ev) : List Ev → Nat
  | [] => 0
  | x :: xs => if x = e then 0 else idxOfEv e xs + 1

/-- Recognizes the external speech-to-text call being invoked. -/
def isAttemptEv : Ev → Bool
  | Ev.transcribeAttempt _ => true
  | _ => false

/-- A sequence of `receive_audio` calls (chunk, transcription outcome, time). -/
def runAudio (st : Store) : List (List Nat × Option String × Nat) → Store
  | [] => st
  | (c, tr, t) :: rest => runAudio (receive_audio st c tr t).1 rest

/-- A store with one freshly started recording (id 0), for concrete witnesses. -/
def startedStore : Store := (start_recording initialStore 0).1

/-- A store whose active session 0 holds three appended bytes. -/
def c2State : Store := (receive_audio startedStore [1, 2, 3] none 1).1

/-- The event trace of stopping `c2State` (buffer non-empty, flush fails). -/
def c2Evs : List Ev := (stop_recording c2State none true 2).2.2

/-- The session stored under id 0 in `c2State`. -/
def c2Session : Session :=
  { audio_data := [1, 2, 3], transcription_buffer := [1, 2, 3], transcripts := [],
    start_time := 0, end_time := none, status := Status.recording, filename := none }

/-- The completed session left by start, one small append, and a clean stop. -/
def c9Session : Session :=
  { audio_data := [1], transcription_buffer := [1], transcripts := [],
    start_time := 0, end_time := some 2, status := Status.completed,
    filename := some ("recording_" ++ toString (0 : Nat) ++ ".wav") }

/-- The store reached by start, one append, and a clean stop. -/
def c9Base : Store :=
  runOps initialStore [Op.start 0, Op.audio [1] none 1, Op.stop none true 2]

/-! Basic lemmas about dict lookup and insertion. -/

theorem lookup_cons (k a : Nat) (v : Session) (l : List (Nat × Session)) :
    ((a, v) :: l).lookup k = if a = k then some v else l.lookup k := by
  simp only [List.lookup]
  by_cases h : k = a
  · simp [h, beq_iff_eq]
  · have hb : (k == a) = false := by simp [h]
    have hne : ¬ a = k := fun h' => h h'.symm
    simp [hb, hne]

theorem lookup_dictInsert_self (l : List (Nat × Session)) (k : Nat) (v : Session) :
    (dictInsert l k v).lookup k = some v := by
  induction l with
  | nil => simp [dictInsert, lookup_cons]
  | cons p rest ih =>
    rcases p with ⟨a, b⟩
    by_cases h : a = k
    · simp [dictInsert, h, lookup_cons]
    · simp [dictInsert, h, lookup_cons, ih]

theorem lookup_dictInsert_ne (l : List (Nat × Session)) (k k' : Nat) (v : Session)
    (h : k' ≠ k) : (dictInsert l k v).lookup k' = l.lookup k' := by
  have h' : ¬ k = k' := fun hk => h hk.symm
  induction l with
  | nil => simp [dictInsert, lookup_cons, h']
  | cons p rest ih =>
    rcases p with ⟨a, b⟩
    by_cases ha : a = k
    · subst ha
      simp [dictInsert, lookup_cons, h']
    · simp [dictInsert, ha, lookup_cons, ih]

theorem mem_dictInsert (l : List (Nat × Session)) (k : Nat) (v : Session)
    (p : Nat × Session) (hp : p ∈ dictInsert l k v) : p = (k, v) ∨ p ∈ l := by
  induction l with
  | nil => simpa [dictInsert] using hp
  | cons q rest ih =>
    rcases q with ⟨a, b⟩
    by_cases ha : a = k
    · subst ha
      simp only [dictInsert, if_pos rfl, if_true, eq_self_iff_true, List.mem_cons] at hp
      rcases hp with h | h
      · exact Or.inl h
      · exact Or.inr (List.mem_cons_of_mem _ h)
    · simp only [dictInsert, if_neg ha, List.mem_cons] at hp
      rcases hp with h | h
      · exact Or.inr (h ▸ List.mem_cons_self _ _)
      · rcases ih h with h' | h'
        · exact Or.inl h'
        · exact Or.inr (List.mem_cons_of_mem _ h')

theorem lookup_mem (l : List (Nat × Session)) (k : Nat) (v : Session)
    (h : l.lookup k = some v) : (k, v) ∈ l := by
  induction l with
  | nil => simp [List.lookup] at h
  | cons p rest ih =>
    rcases p with ⟨a, b⟩
    rw [lookup_cons] at h
    by_cases ha : a = k
    · rw [if_pos ha] at h
      obtain rfl := Option.some.inj h
      exact ha ▸ List.mem_cons_self _ _
    · rw [if_neg ha] at h
      exact List.mem_cons_of_mem _ (ih h)

/-! Exact-result lemmas for `transcribe_chunk`. -/

theorem transcribe_chunk_skip_none (st : Store) (rid : Nat) (tr : Option String) (t : Nat)
    (h : st.recordings.lookup rid = none) :
    transcribe_chunk st rid tr t = (st, []) := by
  simp [transcribe_chunk, h]

theorem transcribe_chunk_skip_empty (st : Store) (rid : Nat) (tr : Option String) (t : Nat)
    (recd : Session) (h : st.recordings.lookup rid = some recd)
    (hb : recd.transcription_buffer = []) :
    transcribe_chunk st rid tr t = (st, []) := by
  simp [transcribe_chunk, h, hb]

theorem transcribe_chunk_fail (st : Store) (rid : Nat) (t : Nat) (recd : Session)
    (h : st.recordings.lookup rid = some recd) (hb : recd.transcription_buffer ≠ []) :
    transcribe_chunk st rid none t =
      (st, [Ev.tempCreated rid, Ev.transcribeAttempt rid, Ev.tempDeleted rid]) := by
  simp [transcribe_chunk, h, List.length_eq_zero, hb]

theorem transcribe_chunk_succ (st : Store) (rid : Nat) (text : String) (t : Nat)
    (recd : Session) (h : st.recordings.lookup rid = some recd)
    (hb : recd.transcription_buffer ≠ []) :
    transcribe_chunk st rid (some text) t =
      ({ st with recordings := dictInsert st.recordings rid (withTranscript recd text t) },
       [Ev.tempCreated rid, Ev.transcribeAttempt rid,
        Ev.broadcastTranscription rid text, Ev.tempDeleted rid]) := by
  simp [transcribe_chunk, h, List.length_eq_zero, hb]

theorem transcribe_chunk_fst_none (st : Store) (rid : Nat) (t : Nat) :
    (transcribe_chunk st rid none t).1 = st := by
  cases h : st.recordings.lookup rid with
  | none => rw [transcribe_chunk_skip_none st rid none t h]
  | some recd =>
    by_cases hb : recd.transcription_buffer = []
    · rw [transcribe_chunk_skip_empty st rid none t recd h hb]
    · rw [transcribe_chunk_fail st rid t recd h hb]

theorem transcribe_chunk_fst_cases (st : Store) (rid : Nat) (tr : Option String) (t : Nat) :
    (transcribe_chunk st rid tr t).1 = st ∨
    ∃ recd text, st.recordings.lookup rid = some recd ∧ tr = some text ∧
      recd.transcription_buffer ≠ [] ∧
      (transcribe_chunk st rid tr t).1 =
        { st with recordings := dictInsert st.recordings rid (withTranscript recd text t) } := by
  cases h : st.recordings.lookup rid with
  | none => exact Or.inl (by rw [transcribe_chunk_skip_none st rid tr t h])
  | some recd =>
    by_cases hb : recd.transcription_buffer = []
    · exact Or.inl (by rw [transcribe_chunk_skip_empty st rid tr t recd h hb])
    · cases tr with
      | none => exact Or.inl (by rw [transcribe_chunk_fail st rid t recd h hb])
      | some text =>
        exact Or.inr ⟨recd, text, rfl, rfl, hb,
          by rw [transcribe_chunk_succ st rid text t recd h hb]⟩

theorem transcribe_chunk_current (st : Store) (rid : Nat) (tr : Option String) (t : Nat) :
    (transcribe_chunk st rid tr t).1.current_recording_id = st.current_recording_id := by
  rcases transcribe_chunk_fst_cases st rid tr t with h | ⟨recd, text, _, _, _, h⟩ <;> rw [h]

theorem transcribe_chunk_nextId (st : Store) (rid : Nat) (tr : Option String) (t : Nat) :
    (transcribe_chunk st rid tr t).1.nextId = st.nextId := by
  rcases transcribe_chunk_fst_cases st rid tr t with h | ⟨recd, text, _, _, _, h⟩ <;> rw [h]

theorem transcribe_chunk_lookup_ne (st : Store) (rid : Nat) (tr : Option String) (t : Nat)
    (rid' : Nat) (hne : rid' ≠ rid) :
    (transcribe_chunk st rid tr t).1.recordings.lookup rid' = st.recordings.lookup rid' := by
  rcases transcribe_chunk_fst_cases st rid tr t with h | ⟨recd, text, _, _, _, h⟩
  · rw [h]
  · rw [h]
    exact lookup_dictInsert_ne _ _ _ _ hne

theorem transcribe_chunk_lookup_self (st : Store) (rid : Nat) (tr : Option String) (t : Nat)
    (recd : Session) (h : st.recordings.lookup rid = some recd) :
    (transcribe_chunk st rid tr t).1.recordings.lookup rid = some recd ∨
    ∃ text, tr = some text ∧ recd.transcription_buffer ≠ [] ∧
      (transcribe_chunk st rid tr t).1.recordings.lookup rid =
        some (withTranscript recd text t) := by
  rcases transcribe_chunk_fst_cases st rid tr t with hcase | ⟨recd0, text, hl, htr, hb, hcase⟩
  · exact Or.inl (by rw [hcase, h])
  · obtain rfl : recd0 = recd := by
      rw [h] at hl
      exact (Option.some.inj hl).symm
    exact Or.inr ⟨text, htr, hb, by rw [hcase]; exact lookup_dictInsert_self _ _ _⟩

theorem transcribe_chunk_lookup_fields (st : Store) (rid : Nat) (tr : Option String) (t : Nat)
    (recd : Session) (h : st.recordings.lookup rid = some recd) :
    ∃ recd', (transcribe_chunk st rid tr t).1.recordings.lookup rid = some recd' ∧
      recd'.audio_data = recd.audio_data ∧ recd'.status = recd.status ∧
      recd'.start_time = recd.start_time ∧ recd'.end_time = recd.end_time ∧
      recd'.filename = recd.filename ∧
      (recd'.transcription_buffer = recd.transcription_buffer ∨
        recd'.transcription_buffer = []) := by
  rcases transcribe_chunk_lookup_self st rid tr t recd h with h' | ⟨text, _, _, h'⟩
  · exact ⟨recd, h', rfl, rfl, rfl, rfl, rfl, Or.inl rfl⟩
  · exact ⟨withTranscript recd text t, h', rfl, rfl, rfl, rfl, rfl, Or.inr rfl⟩

/-! Equation lemmas for `start_recording`, `stop_recording` and `receive_audio`. -/

theorem start_recording_fst (st : Store) (t : Nat) :
    (start_recording st t).1 =
      { recordings := dictInsert st.recordings st.nextId (freshSession t),
        current_recording_id := some st.nextId,
        nextId := st.nextId + 1 } := rfl

theorem stop_recording_none (st : Store) (tr : Option String) (w : Bool) (t : Nat)
    (hc : st.current_recording_id = none) :
    stop_recording st tr w t =
      (st, StopOutcome.ret { ok := false, recording_id := none,
                             error := some "No active recording" }, []) := by
  simp [stop_recording, hc]

theorem stop_recording_no_rec (st : Store) (tr : Option String) (w : Bool) (t : Nat)
    (rid : Nat) (hc : st.current_recording_id = some rid)
    (hr : st.recordings.lookup rid = none) :
    stop_recording st tr w t = (st, StopOutcome.raised, []) := by
  simp [stop_recording, hc, hr]

theorem receive_audio_eq_small (st : Store) (rid : Nat) (r : Session) (chunk : List Nat)
    (tr : Option String) (t : Nat)
    (hc : st.current_recording_id = some rid)
    (hr : st.recordings.lookup rid = some r)
    (hth : ¬ TRANSCRIPTION_CHUNK_SIZE ≤ (appendChunk r chunk).transcription_buffer.length) :
    receive_audio st chunk tr t =
      ({ st with recordings := dictInsert st.recordings rid (appendChunk r chunk) },
       AudioOutcome.ret true,
       [Ev.broadcastAudioUpdate rid (samplesOf (appendChunk r chunk).audio_data)
          (durationOf (appendChunk r chunk).audio_data)]) := by
  simp [receive_audio, hc, hr, hth]

theorem receive_audio_eq_big (st : Store) (rid : Nat) (r : Session) (chunk : List Nat)
    (tr : Option String) (t : Nat)
    (hc : st.current_recording_id = some rid)
    (hr : st.recordings.lookup rid = some r)
    (hth : TRANSCRIPTION_CHUNK_SIZE ≤ (appendChunk r chunk).transcription_buffer.length) :
    receive_audio st chunk tr t =
      ((transcribe_chunk
          { st with recordings := dictInsert st.recordings rid (appendChunk r chunk) } rid tr t).1,
       AudioOutcome.ret true,
       (transcribe_chunk
          { st with recordings := dictInsert st.recordings rid (appendChunk r chunk) } rid tr t).2 ++
         [Ev.broadcastAudioUpdate rid (samplesOf (appendChunk r chunk).audio_data)
            (durationOf (appendChunk r chunk).audio_data)]) := by
  simp [receive_audio, hc, hr, hth]

theorem receive_audio_fst_autostart (st : Store) (chunk : List Nat) (tr : Option String)
    (t : Nat) (hc : st.current_recording_id = none) :
    (receive_audio st chunk tr t).1 = (receive_audio (start_recording st t).1 chunk tr t).1 := by
  conv_lhs => rw [receive_audio]
  conv_rhs => rw [receive_audio]
  simp [hc, start_recording, lookup_dictInsert_self]

theorem receive_audio_active (st : Store) (rid : Nat) (r : Session) (chunk : List Nat)
    (tr : Option String) (t : Nat)
    (hc : st.current_recording_id = some rid)
    (hr : st.recordings.lookup rid = some r) :
    (receive_audio st chunk tr t).1.current_recording_id = some rid ∧
    (receive_audio st chunk tr t).1.nextId = st.nextId ∧
    (receive_audio st chunk tr t).2.1 = AudioOutcome.ret true ∧
    (∀ rid', rid' ≠ rid →
      (receive_audio st chunk tr t).1.recordings.lookup rid' = st.recordings.lookup rid') ∧
    ∃ r', (receive_audio st chunk tr t).1.recordings.lookup rid = some r' ∧
      r'.audio_data = r.audio_data ++ chunk ∧ r'.status = r.status ∧
      r'.start_time = r.start_time ∧ r'.end_time = r.end_time ∧ r'.filename = r.filename ∧
      (r'.transcription_buffer = r.transcription_buffer ++ chunk ∨
        r'.transcription_buffer = []) := by
  by_cases hth : TRANSCRIPTION_CHUNK_SIZE ≤ (appendChunk r chunk).transcription_buffer.length
  · rw [receive_audio_eq_big st rid r chunk tr t hc hr hth]
    have hself : (dictInsert st.recordings rid (appendChunk r chunk)).lookup rid
        = some (appendChunk r chunk) := lookup_dictInsert_self _ _ _
    refine ⟨?_, ?_, rfl, ?_, ?_⟩
    · rw [transcribe_chunk_current]
      exact hc
    · rw [transcribe_chunk_nextId]
    · intro rid' hne
      rw [transcribe_chunk_lookup_ne _ _ _ _ _ hne]
      exact lookup_dictInsert_ne _ _ _ _ hne
    · obtain ⟨r', hl, ha, hs, h1, h2, h3, hbuf⟩ :=
        transcribe_chunk_lookup_fields
          { st with recordings := dictInsert st.recordings rid (appendChunk r chunk) }
          rid tr t (appendChunk r chunk) hself
      refine ⟨r', hl, ha, hs, h1, h2, h3, ?_⟩
      rcases hbuf with hbuf | hbuf
      · exact Or.inl hbuf
      · exact Or.inr hbuf
  · rw [receive_audio_eq_small st rid r chunk tr t hc hr hth]
    refine ⟨hc, rfl, rfl, ?_, ?_⟩
    · intro rid' hne
      exact lookup_dictInsert_ne _ _ _ _ hne
    · exact ⟨appendChunk r chunk, lookup_dictInsert_self _ _ _, rfl, rfl, rfl, rfl, rfl,
        Or.inl rfl⟩

theorem stop_recording_eq_noflush_ok (st : Store) (rid : Nat) (r : Session)
    (tr : Option String) (t : Nat)
    (hc : st.current_recording_id = some rid)
    (hr : st.recordings.lookup rid = some r)
    (hb : r.transcription_buffer = []) :
    stop_recording st tr true t =
      ({ st with
          recordings := dictInsert (dictInsert st.recordings rid (markStopped r t)) rid
            (withFilename (markStopped r t) rid),
          current_recording_id := none },
       StopOutcome.ret { ok := true, recording_id := some rid, error := none },
       [Ev.statusCompleted rid, Ev.fileWritten rid,
        Ev.broadcastStopped rid (durationOf r.audio_data)]) := by
  have hb0 : ¬ 0 < (markStopped r t).transcription_buffer.length := by
    simp [markStopped, hb]
  have hself : (dictInsert st.recordings rid (markStopped r t)).lookup rid
      = some (markStopped r t) := lookup_dictInsert_self _ _ _
  simp only [stop_recording, hc, hr, if_neg hb0, hself]
  simp [withFilename, markStopped, durationOf]

theorem stop_recording_eq_noflush_raise (st : Store) (rid : Nat) (r : Session)
    (tr : Option String) (t : Nat)
    (hc : st.current_recording_id = some rid)
    (hr : st.recordings.lookup rid = some r)
    (hb : r.transcription_buffer = []) :
    stop_recording st tr false t =
      ({ st with recordings := dictInsert st.recordings rid (markStopped r t) },
       StopOutcome.raised, [Ev.statusCompleted rid]) := by
  have hb0 : ¬ 0 < (markStopped r t).transcription_buffer.length := by
    simp [markStopped, hb]
  simp only [stop_recording, hc, hr, if_neg hb0]
  simp

theorem stop_recording_eq_flush_ok (st : Store) (rid : Nat) (r : Session)
    (tr : Option String) (t : Nat) (r2 : Session)
    (hc : st.current_recording_id = some rid)
    (hr : st.recordings.lookup rid = some r)
    (hb : r.transcription_buffer ≠ [])
    (h2 : (transcribe_chunk
        { st with recordings := dictInsert st.recordings rid (markStopped r t) }
        rid tr t).1.recordings.lookup rid = some r2) :
    stop_recording st tr true t =
      ({ (transcribe_chunk
            { st with recordings := dictInsert st.recordings rid (markStopped r t) }
            rid tr t).1 with
          recordings := dictInsert (transcribe_chunk
            { st with recordings := dictInsert st.recordings rid (markStopped r t) }
            rid tr t).1.recordings rid (withFilename r2 rid),
          current_recording_id := none },
       StopOutcome.ret { ok := true, recording_id := some rid, error := none },
       Ev.statusCompleted rid ::
         ((transcribe_chunk
             { st with recordings := dictInsert st.recordings rid (markStopped r t) }
             rid tr t).2 ++
           [Ev.fileWritten rid, Ev.broadcastStopped rid (durationOf r2.audio_data)])) := by
  have hb0 : 0 < (markStopped r t).transcription_buffer.length := by
    simp [markStopped, List.length_pos, hb]
  rw [hc] at h2
  simp only [stop_recording, hc, hr, if_pos hb0, h2]
  simp [withFilename]

theorem stop_recording_eq_flush_raise (st : Store) (rid : Nat) (r : Session)
    (tr : Option String) (t : Nat)
    (hc : st.current_recording_id = some rid)
    (hr : st.recordings.lookup rid = some r)
    (hb : r.transcription_buffer ≠ []) :
    stop_recording st tr false t =
      ((transcribe_chunk
          { st with recordings := dictInsert st.recordings rid (markStopped r t) }
          rid tr t).1,
       StopOutcome.raised,
       Ev.statusCompleted rid ::
         (transcribe_chunk
           { st with recordings := dictInsert st.recordings rid (markStopped r t) }
           rid tr t).2) := by
  have hb0 : 0 < (markStopped r t).transcription_buffer.length := by
    simp [markStopped, List.length_pos, hb]
  simp only [stop_recording, hc, hr, if_pos hb0]
  simp

theorem stop_recording_active (st : Store) (rid : Nat) (r : Session) (tr : Option String)
    (w : Bool) (t : Nat)
    (hc : st.current_recording_id = some rid)
    (hr : st.recordings.lookup rid = some r) :
    (stop_recording st tr w t).1.nextId = st.nextId ∧
    (∀ rid', rid' ≠ rid →
      (stop_recording st tr w t).1.recordings.lookup rid' = st.recordings.lookup rid') ∧
    (∃ r', (stop_recording st tr w t).1.recordings.lookup rid = some r' ∧
       r'.status = Status.completed ∧ r'.audio_data = r.audio_data) ∧
    (w = true →
      (stop_recording st tr w t).2.1 =
        StopOutcome.ret { ok := true, recording_id := some rid, error := none } ∧
      (stop_recording st tr w t).1.current_recording_id = none) ∧
    (w = false →
      (stop_recording st tr w t).2.1 = StopOutcome.raised ∧
      (stop_recording st tr w t).1.current_recording_id = some rid) := by
  have hself : (dictInsert st.recordings rid (markStopped r t)).lookup rid
      = some (markStopped r t) := lookup_dictInsert_self _ _ _
  by_cases hb : r.transcription_buffer = []
  · cases w
    · rw [stop_recording_eq_noflush_raise st rid r tr t hc hr hb]
      refine ⟨rfl, ?_, ?_, ?_, ?_⟩
      · intro rid' hne
        exact lookup_dictInsert_ne _ _ _ _ hne
      · exact ⟨markStopped r t, hself, rfl, rfl⟩
      · intro h
        cases h
      · intro _
        exact ⟨rfl, hc⟩
    · rw [stop_recording_eq_noflush_ok st rid r tr t hc hr hb]
      refine ⟨rfl, ?_, ?_, ?_, ?_⟩
      · intro rid' hne
        show ((dictInsert (dictInsert st.recordings rid (markStopped r t)) rid
          (withFilename (markStopped r t) rid)).lookup rid') = st.recordings.lookup rid'
        rw [lookup_dictInsert_ne _ _ _ _ hne]
        exact lookup_dictInsert_ne _ _ _ _ hne
      · exact ⟨withFilename (markStopped r t) rid, lookup_dictInsert_self _ _ _, rfl, rfl⟩
      · intro _
        exact ⟨rfl, rfl⟩
      · intro h
        cases h
  · obtain ⟨r2, h2, haud, hstat, _, _, _, _⟩ :=
      transcribe_chunk_lookup_fields
        { st with recordings := dictInsert st.recordings rid (markStopped r t) }
        rid tr t (markStopped r t) hself
    have hst2 : r2.status = Status.completed := by rw [hstat]; rfl
    have haud2 : r2.audio_data = r.audio_data := haud
    cases w
    · rw [stop_recording_eq_flush_raise st rid r tr t hc hr hb]
      refine ⟨?_, ?_, ?_, ?_, ?_⟩
      · rw [transcribe_chunk_nextId]
      · intro rid' hne
        rw [transcribe_chunk_lookup_ne _ _ _ _ _ hne]
        exact lookup_dictInsert_ne _ _ _ _ hne
      · exact ⟨r2, h2, hst2, haud2⟩
      · intro h
        cases h
      · intro _
        refine ⟨rfl, ?_⟩
        rw [transcribe_chunk_current]
        exact hc
    · rw [stop_recording_eq_flush_ok st rid r tr t r2 hc hr hb h2]
      refine ⟨?_, ?_, ?_, ?_, ?_⟩
      · show (transcribe_chunk
            { st with recordings := dictInsert st.recordings rid (markStopped r t) }
            rid tr t).1.nextId = st.nextId
        rw [transcribe_chunk_nextId]
      · intro rid' hne
        show (dictInsert (transcribe_chunk
            { st with recordings := dictInsert st.recordings rid (markStopped r t) }
            rid tr t).1.recordings rid (withFilename r2 rid)).lookup rid'
            = st.recordings.lookup rid'
        rw [lookup_dictInsert_ne _ _ _ _ hne, transcribe_chunk_lookup_ne _ _ _ _ _ hne]
        exact lookup_dictInsert_ne _ _ _ _ hne
      · exact ⟨withFilename r2 rid, lookup_dictInsert_self _ _ _, hst2, haud2⟩
      · intro _
        exact ⟨rfl, rfl⟩
      · intro h
        cases h

/-! Preservation of the store invariant by single operations. -/

theorem receive_audio_no_rec (st : Store) (chunk : List Nat) (tr : Option String) (t : Nat)
    (rid : Nat) (hc : st.current_recording_id = some rid)
    (hr : st.recordings.lookup rid = none) :
    receive_audio st chunk tr t = (st, AudioOutcome.raised, []) := by
  simp [receive_audio, hc, hr]

theorem transcribe_chunk_keys (st : Store) (rid : Nat) (tr : Option String) (t : Nat)
    (p : Nat × Session) (hp : p ∈ (transcribe_chunk st rid tr t).1.recordings) :
    ∃ q, q ∈ st.recordings ∧ p.1 = q.1 := by
  rcases transcribe_chunk_fst_cases st rid tr t with h | ⟨recd, text, hl, _, _, h⟩
  · rw [h] at hp
    exact ⟨p, hp, rfl⟩
  · rw [h] at hp
    rcases mem_dictInsert _ _ _ p hp with rfl | hp'
    · exact ⟨(rid, recd), lookup_mem _ _ _ hl, rfl⟩
    · exact ⟨p, hp', rfl⟩

theorem keysBounded_start (st : Store) (t : Nat) (hk : KeysBounded st) :
    KeysBounded (start_recording st t).1 := by
  intro p hp
  rw [start_recording_fst] at hp
  rcases mem_dictInsert _ _ _ p hp with rfl | hp'
  · exact Nat.lt_succ_self _
  · exact Nat.lt_succ_of_lt (hk p hp')

theorem keysBounded_receive_some (st : Store) (rid : Nat) (r : Session) (chunk : List Nat)
    (tr : Option String) (t : Nat)
    (hc : st.current_recording_id = some rid)
    (hr : st.recordings.lookup rid = some r)
    (hk : KeysBounded st) : KeysBounded (receive_audio st chunk tr t).1 := by
  have hridlt : rid < st.nextId := hk (rid, r) (lookup_mem _ _ _ hr)
  have hnext : (receive_audio st chunk tr t).1.nextId = st.nextId :=
    (receive_audio_active st rid r chunk tr t hc hr).2.1
  intro p hp
  rw [hnext]
  by_cases hth : TRANSCRIPTION_CHUNK_SIZE ≤ (appendChunk r chunk).transcription_buffer.length
  · rw [receive_audio_eq_big st rid r chunk tr t hc hr hth] at hp
    obtain ⟨q, hq, hpq⟩ := transcribe_chunk_keys _ _ _ _ p hp
    rw [hpq]
    rcases mem_dictInsert _ _ _ q hq with rfl | hq'
    · exact hridlt
    · exact hk q hq'
  · rw [receive_audio_eq_small st rid r chunk tr t hc hr hth] at hp
    rcases mem_dictInsert _ _ _ p hp with rfl | hp'
    · exact hridlt
    · exact hk p hp'

theorem keysBounded_stop_some (st : Store) (rid : Nat) (r : Session) (tr : Option String)
    (w : Bool) (t : Nat)
    (hc : st.current_recording_id = some rid)
    (hr : st.recordings.lookup rid = some r)
    (hk : KeysBounded st) : KeysBounded (stop_recording st tr w t).1 := by
  have hridlt : rid < st.nextId := hk (rid, r) (lookup_mem _ _ _ hr)
  have hnext : (stop_recording st tr w t).1.nextId = st.nextId :=
    (stop_recording_active st rid r tr w t hc hr).1
  have hkeys1 : KeysBounded
      { st with recordings := dictInsert st.recordings rid (markStopped r t) } := by
    intro p hp
    rcases mem_dictInsert _ _ _ p hp with rfl | hp'
    · exact hridlt
    · exact hk p hp'
  intro p hp
  rw [hnext]
  by_cases hb : r.transcription_buffer = []
  · cases w
    · rw [stop_recording_eq_noflush_raise st rid r tr t hc hr hb] at hp
      exact hkeys1 p hp
    · rw [stop_recording_eq_noflush_ok st rid r tr t hc hr hb] at hp
      rcases mem_dictInsert _ _ _ p hp with rfl | hp'
      · exact hridlt
      · exact hkeys1 p hp'
  · cases w
    · rw [stop_recording_eq_flush_raise st rid r tr t hc hr hb] at hp
      obtain ⟨q, hq, hpq⟩ := transcribe_chunk_keys _ _ _ _ p hp
      rw [hpq]
      exact hkeys1 q hq
    · obtain ⟨r2, h2, _, _, _, _, _, _⟩ :=
        transcribe_chunk_lookup_fields
          { st with recordings := dictInsert st.recordings rid (markStopped r t) }
          rid tr t (markStopped r t) (lookup_dictInsert_self _ _ _)
      rw [stop_recording_eq_flush_ok st rid r tr t r2 hc hr hb h2] at hp
      rcases mem_dictInsert _ _ _ p hp with rfl | hp'
      · exact hridlt
      · obtain ⟨q, hq, hpq⟩ := transcribe_chunk_keys _ _ _ _ p hp'
        rw [hpq]
        exact hkeys1 q hq

theorem keysBounded_step (st : Store) (op : Op) (hk : KeysBounded st) :
    KeysBounded (stepOp st op) := by
  cases op with
  | start t => exact keysBounded_start st t hk
  | audio chunk tr t =>
    cases hcur : st.current_recording_id with
    | some rid =>
      cases hrl : st.recordings.lookup rid with
      | none =>
        show KeysBounded (receive_audio st chunk tr t).1
        rw [receive_audio_no_rec st chunk tr t rid hcur hrl]
        exact hk
      | some r => exact keysBounded_receive_some st rid r chunk tr t hcur hrl hk
    | none =>
      show KeysBounded (receive_audio st chunk tr t).1
      rw [receive_audio_fst_autostart st chunk tr t hcur]
      exact keysBounded_receive_some (start_recording st t).1 st.nextId (freshSession t)
        chunk tr t rfl (lookup_dictInsert_self _ _ _) (keysBounded_start st t hk)
  | stop tr w t =>
    cases hcur : st.current_recording_id with
    | some rid =>
      cases hrl : st.recordings.lookup rid with
      | none =>
        show KeysBounded (stop_recording st tr w t).1
        rw [stop_recording_no_rec st tr w t rid hcur hrl]
        exact hk
      | some r => exact keysBounded_stop_some st rid r tr w t hcur hrl hk
    | none =>
      show KeysBounded (stop_recording st tr w t).1
      rw [stop_recording_none st tr w t hcur]
      exact hk

theorem currentActive_start (st : Store) (t : Nat) :
    CurrentActive (start_recording st t).1 := by
  intro rid hrid
  rw [start_recording_fst] at hrid ⊢
  obtain rfl := Option.some.inj hrid
  exact ⟨freshSession t, lookup_dictInsert_self _ _ _, rfl⟩

theorem currentActive_receive_some (st : Store) (rid : Nat) (r : Session) (chunk : List Nat)
    (tr : Option String) (t : Nat)
    (hc : st.current_recording_id = some rid)
    (hr : st.recordings.lookup rid = some r)
    (hstat : r.status = Status.recording) :
    CurrentActive (receive_audio st chunk tr t).1 := by
  obtain ⟨hcur', _, _, _, r', hl', _, hstat', _⟩ :=
    receive_audio_active st rid r chunk tr t hc hr
  intro rid0 hrid0
  rw [hcur'] at hrid0
  obtain rfl := Option.some.inj hrid0
  exact ⟨r', hl', by rw [hstat', hstat]⟩

theorem currentActive_step (st : Store) (op : Op) (hg : goodOp op) (hi : Inv st) :
    CurrentActive (stepOp st op) := by
  cases op with
  | start t => exact currentActive_start st t
  | audio chunk tr t =>
    cases hcur : st.current_recording_id with
    | some rid =>
      obtain ⟨r, hr, hstat⟩ := hi.1 rid hcur
      exact currentActive_receive_some st rid r chunk tr t hcur hr hstat
    | none =>
      show CurrentActive (receive_audio st chunk tr t).1
      rw [receive_audio_fst_autostart st chunk tr t hcur]
      exact currentActive_receive_some (start_recording st t).1 st.nextId (freshSession t)
        chunk tr t rfl (lookup_dictInsert_self _ _ _) rfl
  | stop tr w t =>
    obtain rfl : w = true := hg
    cases hcur : st.current_recording_id with
    | some rid =>
      obtain ⟨r, hr, _⟩ := hi.1 rid hcur
      obtain ⟨_, _, _, hok, _⟩ := stop_recording_active st rid r tr true t hcur hr
      show CurrentActive (stop_recording st tr true t).1
      intro rid0 hrid0
      rw [(hok rfl).2] at hrid0
      cases hrid0
    | none =>
      show CurrentActive (stop_recording st tr true t).1
      rw [stop_recording_none st tr true t hcur]
      intro rid0 hrid0
      rw [hcur] at hrid0
      cases hrid0

theorem inv_step (st : Store) (op : Op) (hg : goodOp op) (hi : Inv st) :
    Inv (stepOp st op) :=
  ⟨currentActive_step st op hg hi, keysBounded_step st op hi.2⟩

theorem stepOp_lookup_untouched (st : Store) (op : Op) (rid : Nat)
    (h1 : rid < st.nextId)
    (h2 : ∀ rid0, st.current_recording_id = some rid0 → rid ≠ rid0) :
    (stepOp st op).recordings.lookup rid = st.recordings.lookup rid := by
  cases op with
  | start t =>
    show (start_recording st t).1.recordings.lookup rid = st.recordings.lookup rid
    rw [start_recording_fst]
    exact lookup_dictInsert_ne _ _ _ _ (Nat.ne_of_lt h1)
  | audio chunk tr t =>
    cases hcur : st.current_recording_id with
    | some rid0 =>
      have hne : rid ≠ rid0 := h2 rid0 hcur
      cases hrl : st.recordings.lookup rid0 with
      | none =>
        show (receive_audio st chunk tr t).1.recordings.lookup rid = st.recordings.lookup rid
        rw [receive_audio_no_rec st chunk tr t rid0 hcur hrl]
      | some r =>
        exact (receive_audio_active st rid0 r chunk tr t hcur hrl).2.2.2.1 rid hne
    | none =>
      show (receive_audio st chunk tr t).1.recordings.lookup rid = st.recordings.lookup rid
      rw [receive_audio_fst_autostart st chunk tr t hcur]
      have hstep := (receive_audio_active (start_recording st t).1 st.nextId (freshSession t)
        chunk tr t rfl (lookup_dictInsert_self _ _ _)).2.2.2.1 rid (Nat.ne_of_lt h1)
      rw [hstep, start_recording_fst]
      exact lookup_dictInsert_ne _ _ _ _ (Nat.ne_of_lt h1)
  | stop tr w t =>
    cases hcur : st.current_recording_id with
    | some rid0 =>
      have hne : rid ≠ rid0 := h2 rid0 hcur
      cases hrl : st.recordings.lookup rid0 with
      | none =>
        show (stop_recording st tr w t).1.recordings.lookup rid = st.recordings.lookup rid
        rw [stop_recording_no_rec st tr w t rid0 hcur hrl]
      | some r =>
        exact (stop_recording_active st rid0 r tr w t hcur hrl).2.1 rid hne
    | none =>
      show (stop_recording st tr w t).1.recordings.lookup rid = st.recordings.lookup rid
      rw [stop_recording_none st tr w t hcur]

theorem completed_lookup_frozen (ops : List Op) : ∀ (st : Store) (rid : Nat) (r : Session),
    (∀ op ∈ ops, goodOp op) → Inv st →
    st.recordings.lookup rid = some r → r.status = Status.completed →
    (runOps st ops).recordings.lookup rid = some r := by
  induction ops with
  | nil =>
    intro st rid r _ _ hr _
    simpa [runOps] using hr
  | cons op ops ih =>
    intro st rid r hops hst hr hcomp
    have hg : goodOp op := hops op (List.mem_cons_self _ _)
    have h1 : rid < st.nextId := hst.2 (rid, r) (lookup_mem _ _ _ hr)
    have h2 : ∀ rid0, st.current_recording_id = some rid0 → rid ≠ rid0 := by
      intro rid0 hcur heq
      obtain ⟨r0, hr0, hstat0⟩ := hst.1 rid0 hcur
      subst heq
      rw [hr] at hr0
      obtain rfl := Option.some.inj hr0
      rw [hcomp] at hstat0
      simp at hstat0
    have hstep : (stepOp st op).recordings.lookup rid = some r := by
      rw [stepOp_lookup_untouched st op rid h1 h2]
      exact hr
    show (runOps (stepOp st op) ops).recordings.lookup rid = some r
    exact ih (stepOp st op) rid r (fun o ho => hops o (List.mem_cons_of_mem _ ho))
      (inv_step st op hg hst) hstep hcomp

/-- Claim C9, counterexample: the claim states that once a session is
Completed, no operation sequence can append further bytes to its `audioData`.
Concretely, after start, one 2-byte append, and a stop whose final WAV write
fails (so `current_recording_id` is not cleared), session 0 is Completed with
2 bytes of audio, yet one further `receive_audio` call appends a third byte to
the Completed session, refuting the claim as stated. -/
theorem C9_counterexample :
    ((runOps initialStore [Op.start 0, Op.audio [1, 2] none 1,
        Op.stop none false 2]).recordings.lookup 0).map
      (fun r => (r.status, r.audio_data.length)) = some (Status.completed, 2) ∧
    ((runOps initialStore [Op.start 0, Op.audio [1, 2] none 1, Op.stop none false 2,
        Op.audio [3] none 3]).recordings.lookup 0).map
      (fun r => (r.status, r.audio_data.length)) = some (Status.completed, 3) := by decide

/-- Claim C9 (amended): across every operation sequence in which each
stopSession's final file write succeeds, a session that has reached status
Completed is completely frozen — its stored record (status and `audioData`
included) never changes again, so the Recording to Completed transition
happens at most once and no bytes are appended after Completed.  (When a
stop's file write fails, the stuck current pointer allows further appends;
see the counterexample.) -/
theorem C9_completed_frozen (ops : List Op) (st : Store) (rid : Nat) (r : Session)
    (hops : ∀ op ∈ ops, goodOp op) (hst : Inv st)
    (hr : st.recordings.lookup rid = some r) (hcomp : r.status = Status.completed) :
    (runOps st ops).recordings.lookup rid = some r :=
  completed_lookup_frozen ops st rid r hops hst hr hcomp

/-- Claim C9, witness: the frozen-session theorem applied to the concrete
completed session 0 of `c9Base` and two further (write-succeeding) operations. -/
theorem C9_completed_frozen_witness :
    (runOps c9Base [Op.start 3, Op.audio [5] none 4]).recordings.lookup 0 =
      some c9Session := by
  apply C9_completed_frozen
  · intro op hop
    fin_cases hop
    · trivial
    · trivial
  · constructor
    · intro rid h
      have h0 : c9Base.current_recording_id = none := rfl
      rw [h0] at h
      cases h
    · intro p hp
      have h1 : c9Base.recordings = [(0, c9Session)] := rfl
      rw [h1] at hp
      have h2 : c9Base.nextId = 1 := rfl
      rw [h2]
      obtain rfl := List.mem_singleton.mp hp
      exact Nat.zero_lt_one
  · rfl
  · rfl

/-- Claim C1, counterexample: the claim states at most one stored session can
have status Recording.  But `start_recording` never fails with
AlreadyRecording: starting twice from the initial store leaves two sessions
whose status is Recording simultaneously. -/
theorem C1_counterexample :
    ((runOps initialStore [Op.start 0, Op.start 1]).recordings.filter
      (fun p => decide (p.2.status = Status.recording))).length = 2 := by decide

/-- Claim C1 (amended): `start_recording` does not fail when a session is
already active; it points the current pointer at the fresh id (whose session
starts in status Recording) and leaves every existing session record — in
particular a still-Recording one — untouched, so several sessions can hold
status Recording at once.  The current pointer itself refers to at most one
session, and only that session receives subsequent appends. -/
theorem C1_start_overwrites (st : Store) (t : Nat) :
    (start_recording st t).1.current_recording_id = some st.nextId ∧
    (start_recording st t).1.recordings.lookup st.nextId = some (freshSession t) ∧
    ∀ rid, rid ≠ st.nextId →
      (start_recording st t).1.recordings.lookup rid = st.recordings.lookup rid := by
  refine ⟨rfl, ?_, ?_⟩
  · rw [start_recording_fst]
    exact lookup_dictInsert_self _ _ _
  · intro rid h
    rw [start_recording_fst]
    exact lookup_dictInsert_ne _ _ _ _ h

/-- Claim C1, witness: a second start on a store with an active session keeps
the first session's record unchanged. -/
theorem C1_start_overwrites_witness :
    (start_recording startedStore 1).1.recordings.lookup 0 =
      startedStore.recordings.lookup 0 :=
  (C1_start_overwrites startedStore 1).2.2 0 (by decide)

/-- Claim C2, counterexample: the claim requires the forced transcription
attempt of a stop with non-empty buffer to happen before the session's status
becomes Completed.  In the concrete stop trace of `c2State` there is exactly
one attempt, but the status change to Completed is emitted strictly before
the transcription attempt, so "the attempt happens before the status becomes
Completed" is false. -/
theorem C2_counterexample :
    (c2Evs.filter isAttemptEv).length = 1 ∧
    Ev.statusCompleted 0 ∈ c2Evs ∧ Ev.transcribeAttempt 0 ∈ c2Evs ∧
    ¬ idxOfEv (Ev.transcribeAttempt 0) c2Evs < idxOfEv (Ev.statusCompleted 0) c2Evs := by
  decide

/-- Claim C2 (amended): stopping with a non-empty pending buffer performs
exactly one forced transcription attempt, and that attempt happens after the
session's status is set to Completed (the very first event of the stop) and
before stop returns; stopping with an empty pending buffer performs zero
attempts. -/
theorem C2_stop_flush (st : Store) (rid : Nat) (r : Session) (tr : Option String)
    (w : Bool) (t : Nat)
    (hc : st.current_recording_id = some rid)
    (hr : st.recordings.lookup rid = some r) :
    (r.transcription_buffer ≠ [] →
      ((stop_recording st tr w t).2.2.filter isAttemptEv).length = 1 ∧
      (stop_recording st tr w t).2.2.head? = some (Ev.statusCompleted rid)) ∧
    (r.transcription_buffer = [] →
      ((stop_recording st tr w t).2.2.filter isAttemptEv).length = 0) := by
  have hself : (dictInsert st.recordings rid (markStopped r t)).lookup rid
      = some (markStopped r t) := lookup_dictInsert_self _ _ _
  constructor
  · intro hb
    have hbm : (markStopped r t).transcription_buffer ≠ [] := hb
    cases w
    · rw [stop_recording_eq_flush_raise st rid r tr t hc hr hb]
      cases tr with
      | none =>
        rw [transcribe_chunk_fail _ _ _ _ hself hbm]
        simp [isAttemptEv]
      | some text =>
        rw [transcribe_chunk_succ _ _ _ _ _ hself hbm]
        simp [isAttemptEv]
    · obtain ⟨r2, h2, _, _, _, _, _, _⟩ :=
        transcribe_chunk_lookup_fields
          { st with recordings := dictInsert st.recordings rid (markStopped r t) }
          rid tr t (markStopped r t) hself
      rw [stop_recording_eq_flush_ok st rid r tr t r2 hc hr hb h2]
      cases tr with
      | none =>
        rw [transcribe_chunk_fail _ _ _ _ hself hbm]
        simp [isAttemptEv]
      | some text =>
        rw [transcribe_chunk_succ _ _ _ _ _ hself hbm]
        simp [isAttemptEv]
  · intro hb
    cases w
    · rw [stop_recording_eq_noflush_raise st rid r tr t hc hr hb]
      simp [isAttemptEv]
    · rw [stop_recording_eq_noflush_ok st rid r tr t hc hr hb]
      simp [isAttemptEv]

/-- Claim C2, witness: the amended stop theorem at the concrete store
`c2State` (active session 0, three buffered bytes, failing transcription,
succeeding file write). -/
theorem C2_stop_flush_witness :
    (c2Session.transcription_buffer ≠ [] →
      ((stop_recording c2State none true 2).2.2.filter isAttemptEv).length = 1 ∧
      (stop_recording c2State none true 2).2.2.head? = some (Ev.statusCompleted 0)) ∧
    (c2Session.transcription_buffer = [] →
      ((stop_recording c2State none true 2).2.2.filter isAttemptEv).length = 0) :=
  C2_stop_flush c2State 0 c2Session none true 2 rfl rfl

/-- Claim C3: after an append to the active session, a transcription attempt
is made if and only if the pending buffer (immediately after the append) holds
at least `TRANSCRIPTION_CHUNK_SIZE` = 96000 bytes, and the pending buffer is
reset to empty exactly when the transcription call succeeds — on a failed call
(and below the threshold) it keeps all accumulated bytes. -/
theorem C3_threshold_trigger (st : Store) (rid : Nat) (r : Session) (chunk : List Nat)
    (tr : Option String) (t : Nat)
    (hc : st.current_recording_id = some rid)
    (hr : st.recordings.lookup rid = some r) :
    TRANSCRIPTION_CHUNK_SIZE = 96000 ∧
    (Ev.transcribeAttempt rid ∈ (receive_audio st chunk tr t).2.2 ↔
      TRANSCRIPTION_CHUNK_SIZE ≤ (r.transcription_buffer ++ chunk).length) ∧
    ((receive_audio st chunk tr t).1.recordings.lookup rid).map
        Session.transcription_buffer =
      some (if TRANSCRIPTION_CHUNK_SIZE ≤ (r.transcription_buffer ++ chunk).length then
              (match tr with
               | some _ => ([] : List Nat)
               | none => r.transcription_buffer ++ chunk)
            else r.transcription_buffer ++ chunk) := by
  have hselfA : (dictInsert st.recordings rid (appendChunk r chunk)).lookup rid
      = some (appendChunk r chunk) := lookup_dictInsert_self _ _ _
  by_cases hth : TRANSCRIPTION_CHUNK_SIZE ≤ (appendChunk r chunk).transcription_buffer.length
  · have hth' : TRANSCRIPTION_CHUNK_SIZE ≤ (r.transcription_buffer ++ chunk).length := hth
    have hbm : (appendChunk r chunk).transcription_buffer ≠ [] := by
      intro hnil
      rw [show (appendChunk r chunk).transcription_buffer
          = r.transcription_buffer ++ chunk from rfl] at hnil
      rw [hnil] at hth'
      simp [TRANSCRIPTION_CHUNK_SIZE, SAMPLE_RATE] at hth'
    refine ⟨rfl, ?_, ?_⟩
    · rw [receive_audio_eq_big st rid r chunk tr t hc hr hth]
      refine iff_of_true ?_ hth'
      cases tr with
      | none =>
        rw [transcribe_chunk_fail _ _ _ _ hselfA hbm]
        simp
      | some text =>
        rw [transcribe_chunk_succ _ _ _ _ _ hselfA hbm]
        simp
    · rw [receive_audio_eq_big st rid r chunk tr t hc hr hth, if_pos hth']
      cases tr with
      | none =>
        rw [transcribe_chunk_fail _ _ _ _ hselfA hbm]
        simp only
        rw [hselfA]
        rfl
      | some text =>
        rw [transcribe_chunk_succ _ _ _ _ _ hselfA hbm]
        simp only
        rw [lookup_dictInsert_self]
        rfl
  · have hth' : ¬ TRANSCRIPTION_CHUNK_SIZE ≤ (r.transcription_buffer ++ chunk).length := hth
    refine ⟨rfl, ?_, ?_⟩
    · rw [receive_audio_eq_small st rid r chunk tr t hc hr hth]
      refine iff_of_false ?_ hth'
      simp
    · rw [receive_audio_eq_small st rid r chunk tr t hc hr hth, if_neg hth']
      simp only
      rw [hselfA]
      rfl

/-- Claim C3, witness: one small append (below threshold, failing external
call) at the freshly started store. -/
theorem C3_threshold_trigger_witness :
    TRANSCRIPTION_CHUNK_SIZE = 96000 ∧
    (Ev.transcribeAttempt 0 ∈ (receive_audio startedStore [1] none 1).2.2 ↔
      TRANSCRIPTION_CHUNK_SIZE ≤ ((freshSession 0).transcription_buffer ++ [1]).length) ∧
    ((receive_audio startedStore [1] none 1).1.recordings.lookup 0).map
        Session.transcription_buffer =
      some (if TRANSCRIPTION_CHUNK_SIZE ≤
              ((freshSession 0).transcription_buffer ++ [1]).length then
              (match (none : Option String) with
               | some _ => ([] : List Nat)
               | none => (freshSession 0).transcription_buffer ++ [1])
            else (freshSession 0).transcription_buffer ++ [1]) :=
  C3_threshold_trigger startedStore 0 (freshSession 0) [1] none 1 rfl rfl

theorem runAudio_audio_data (calls : List (List Nat × Option String × Nat)) :
    ∀ (st : Store) (rid : Nat) (r : Session),
    st.current_recording_id = some rid →
    st.recordings.lookup rid = some r →
    ((runAudio st calls).recordings.lookup rid).map Session.audio_data =
      some (r.audio_data ++ (calls.map (fun c => c.1)).flatten) := by
  induction calls with
  | nil =>
    intro st rid r _ hr
    simp [runAudio, hr]
  | cons c rest ih =>
    intro st rid r hc hr
    rcases c with ⟨chunk, tr, t⟩
    obtain ⟨hcur', _, _, _, r', hl', ha', _, _, _, _, _⟩ :=
      receive_audio_active st rid r chunk tr t hc hr
    have hrec := ih (receive_audio st chunk tr t).1 rid r' hcur' hl'
    show ((runAudio (receive_audio st chunk tr t).1 rest).recordings.lookup rid).map
        Session.audio_data = _
    rw [hrec, ha']
    simp

/-- Claim C4: running any sequence of appends on the active session leaves
`audioData` equal to the previous audio followed by the decoded chunks
concatenated in call order (so from a fresh session its length is the sum of
the chunk lengths), and a single append extends `audioData` by exactly its
chunk while the chunk is also appended to the pending buffer (which afterwards
is either the extended buffer or, after a successful flush, empty). -/
theorem C4_audio_append (calls : List (List Nat × Option String × Nat)) (st : Store)
    (rid : Nat) (r : Session) (chunk : List Nat) (tr : Option String) (t : Nat)
    (hc : st.current_recording_id = some rid)
    (hr : st.recordings.lookup rid = some r) :
    ((runAudio st calls).recordings.lookup rid).map Session.audio_data =
      some (r.audio_data ++ (calls.map (fun c => c.1)).flatten) ∧
    ((runAudio st calls).recordings.lookup rid).map (fun s => s.audio_data.length) =
      some (r.audio_data.length + (calls.map (fun c => c.1.length)).sum) ∧
    ((receive_audio st chunk tr t).1.recordings.lookup rid).map Session.audio_data =
      some (r.audio_data ++ chunk) ∧
    (((receive_audio st chunk tr t).1.recordings.lookup rid).map
        Session.transcription_buffer = some (r.transcription_buffer ++ chunk) ∨
      ((receive_audio st chunk tr t).1.recordings.lookup rid).map
        Session.transcription_buffer = some []) := by
  have hmain := runAudio_audio_data calls st rid r hc hr
  obtain ⟨_, _, _, _, r', hl', ha', _, _, _, _, hbuf'⟩ :=
    receive_audio_active st rid r chunk tr t hc hr
  refine ⟨hmain, ?_, ?_, ?_⟩
  · cases hl : (runAudio st calls).recordings.lookup rid with
    | none =>
      rw [hl] at hmain
      simp at hmain
    | some s =>
      rw [hl] at hmain
      simp only [Option.map_some'] at hmain
      obtain hs := Option.some.inj hmain
      simp only [Option.map_some']
      rw [hs]
      rw [List.length_append, List.length_flatten]
      simp [List.map_map, Function.comp_def]
  · rw [hl']
    simp [ha']
  · rcases hbuf' with h | h
    · exact Or.inl (by rw [hl']; simp [h])
    · exact Or.inr (by rw [hl']; simp [h])

/-- Claim C4, witness: two appends at the freshly started store, and one
single append of a third chunk. -/
theorem C4_audio_append_witness :
    ((runAudio startedStore [([1], none, 1), ([2, 3], none, 2)]).recordings.lookup 0).map
        Session.audio_data =
      some ((freshSession 0).audio_data ++
        (([([1], none, 1), ([2, 3], none, 2)] :
            List (List Nat × Option String × Nat)).map (fun c => c.1)).flatten) ∧
    ((runAudio startedStore [([1], none, 1), ([2, 3], none, 2)]).recordings.lookup 0).map
        (fun s => s.audio_data.length) =
      some ((freshSession 0).audio_data.length +
        (([([1], none, 1), ([2, 3], none, 2)] :
            List (List Nat × Option String × Nat)).map (fun c => c.1.length)).sum) ∧
    ((receive_audio startedStore [9] none 3).1.recordings.lookup 0).map
        Session.audio_data = some ((freshSession 0).audio_data ++ [9]) ∧
    (((receive_audio startedStore [9] none 3).1.recordings.lookup 0).map
        Session.transcription_buffer =
          some ((freshSession 0).transcription_buffer ++ [9]) ∨
      ((receive_audio startedStore [9] none 3).1.recordings.lookup 0).map
        Session.transcription_buffer = some []) :=
  C4_audio_append [([1], none, 1), ([2, 3], none, 2)] startedStore 0 (freshSession 0)
    [9] none 3 rfl rfl

/-- Claim C5: when the external speech-to-text call raises, `transcribe_chunk`
returns with the entire store — in particular the session's pending buffer —
unchanged; whenever the ephemeral temp file is created it is also deleted, on
success and failure alike; and the append call that triggered the attempt
still returns `ok`, so no error is surfaced to that caller. -/
theorem C5_transcription_failure (st : Store) (rid : Nat) (r : Session) (chunk : List Nat)
    (tr : Option String) (t : Nat)
    (hc : st.current_recording_id = some rid)
    (hr : st.recordings.lookup rid = some r) :
    (transcribe_chunk st rid none t).1 = st ∧
    (Ev.tempCreated rid ∈ (transcribe_chunk st rid tr t).2 →
      Ev.tempDeleted rid ∈ (transcribe_chunk st rid tr t).2) ∧
    (receive_audio st chunk none t).2.1 = AudioOutcome.ret true := by
  refine ⟨transcribe_chunk_fst_none st rid t, ?_,
    (receive_audio_active st rid r chunk none t hc hr).2.2.1⟩
  intro hcr
  by_cases hbuf : r.transcription_buffer = []
  · rw [transcribe_chunk_skip_empty st rid tr t r hr hbuf] at hcr
    simp at hcr
  · cases tr with
    | none =>
      rw [transcribe_chunk_fail st rid t r hr hbuf]
      simp
    | some text =>
      rw [transcribe_chunk_succ st rid text t r hr hbuf]
      simp

/-- Claim C5, witness: at the concrete store `c2State` a failed call leaves
the store unchanged, and a successful call's temp file is still deleted. -/
theorem C5_transcription_failure_witness :
    (transcribe_chunk c2State 0 none 2).1 = c2State ∧
    Ev.tempDeleted 0 ∈ (transcribe_chunk c2State 0 (some "hi") 2).2 := by
  have h := C5_transcription_failure c2State 0 c2Session [1] (some "hi") 2 rfl rfl
  exact ⟨h.1, h.2.1 (by decide)⟩

/-- Claim C6: if the final WAV write fails during stop, the exception
propagates to the stop caller (the outcome is `raised`, not a swallowed ok),
and the session has nevertheless already been marked Completed, so it does not
remain in status Recording. -/
theorem C6_write_failure (st : Store) (rid : Nat) (r : Session) (tr : Option String)
    (t : Nat)
    (hc : st.current_recording_id = some rid)
    (hr : st.recordings.lookup rid = some r) :
    (stop_recording st tr false t).2.1 = StopOutcome.raised ∧
    ((stop_recording st tr false t).1.recordings.lookup rid).map Session.status =
      some Status.completed := by
  obtain ⟨_, _, ⟨r', hl', hstat', _⟩, _, hraise⟩ :=
    stop_recording_active st rid r tr false t hc hr
  refine ⟨(hraise rfl).1, ?_⟩
  rw [hl']
  simp [hstat']

/-- Claim C6, witness: the write-failure theorem at the concrete store
`c2State`. -/
theorem C6_write_failure_witness :
    (stop_recording c2State none false 2).2.1 = StopOutcome.raised ∧
    ((stop_recording c2State none false 2).1.recordings.lookup 0).map Session.status =
      some Status.completed :=
  C6_write_failure c2State 0 c2Session none 2 rfl rfl

/-- Claim C7: stopping with no active recording returns
`{ok: false, error: "No active recording"}` and leaves the entire store —
sessions and current pointer — untouched; stopping with an active session
(and a succeeding file write) returns `{ok: true}` with the stopped id and
clears the current pointer. -/
theorem C7_stop_response (st : Store) (rid : Nat) (r : Session) (tr : Option String)
    (w : Bool) (t : Nat) :
    (st.current_recording_id = none →
      stop_recording st tr w t =
        (st, StopOutcome.ret { ok := false, recording_id := none,
                               error := some "No active recording" }, [])) ∧
    (st.current_recording_id = some rid → st.recordings.lookup rid = some r →
      (stop_recording st tr true t).2.1 =
        StopOutcome.ret { ok := true, recording_id := some rid, error := none } ∧
      (stop_recording st tr true t).1.current_recording_id = none) := by
  constructor
  · intro hc
    exact stop_recording_none st tr w t hc
  · intro hc hr
    exact (stop_recording_active st rid r tr true t hc hr).2.2.2.1 rfl

/-- Claim C7, witness: stop on the empty initial store reports the error and
changes nothing; stop on `c2State` returns ok with id 0 and clears the
pointer. -/
theorem C7_stop_response_witness :
    stop_recording initialStore none true 0 =
      (initialStore, StopOutcome.ret { ok := false, recording_id := none,
                                       error := some "No active recording" }, []) ∧
    (stop_recording c2State none true 2).2.1 =
      StopOutcome.ret { ok := true, recording_id := some 0, error := none } ∧
    (stop_recording c2State none true 2).1.current_recording_id = none := by
  refine ⟨(C7_stop_response initialStore 0 (freshSession 0) none true 0).1 rfl, ?_⟩
  exact (C7_stop_response c2State 0 c2Session none true 2).2 rfl rfl

theorem sendAll_eq (subs : List Nat) (sendOk : Nat → Bool) :
    sendAll subs sendOk = (subs.filter sendOk, subs.filter (fun w => ! sendOk w)) := by
  induction subs with
  | nil => simp [sendAll]
  | cons w rest ih =>
    rw [sendAll, ih]
    by_cases h : sendOk w <;> simp [h, List.filter_cons]

/-- Claim C8: a broadcast attempts delivery to every subscriber independently
(the delivered list is exactly the subscribers whose own send succeeds, no
matter how many other sends fail), the broadcast itself always returns a
result, and by the end of the broadcast every subscriber whose delivery failed
has been removed from the live set while every successful one remains. -/
theorem C8_broadcast_independent (subs : List Nat) (sendOk : Nat → Bool) (w0 : Nat) :
    (broadcast_status subs sendOk).delivered = subs.filter sendOk ∧
    (w0 ∈ subs → sendOk w0 = true → w0 ∈ (broadcast_status subs sendOk).delivered) ∧
    (w0 ∈ subs → sendOk w0 = false → ¬ w0 ∈ (broadcast_status subs sendOk).remaining) ∧
    (w0 ∈ subs → sendOk w0 = true → w0 ∈ (broadcast_status subs sendOk).remaining) := by
  have he := sendAll_eq subs sendOk
  have hd : (broadcast_status subs sendOk).delivered = subs.filter sendOk := by
    simp [broadcast_status, he]
  have hrem : (broadcast_status subs sendOk).remaining =
      subs.filter (fun w => decide (¬ w ∈ subs.filter (fun v => ! sendOk v))) := by
    simp [broadcast_status, he]
  refine ⟨hd, ?_, ?_, ?_⟩
  · intro hw hok
    rw [hd]
    exact List.mem_filter.mpr ⟨hw, hok⟩
  · intro hw hok
    rw [hrem]
    intro hmem
    have hnot := of_decide_eq_true (List.mem_filter.mp hmem).2
    exact hnot (List.mem_filter.mpr ⟨hw, by simp [hok]⟩)
  · intro hw hok
    rw [hrem]
    refine List.mem_filter.mpr ⟨hw, decide_eq_true ?_⟩
    intro hmem
    have h2 := (List.mem_filter.mp hmem).2
    simp [hok] at h2

/-- Claim C8, witness: two subscribers where only subscriber 1's send
succeeds: 1 is delivered to and stays subscribed, 2 is pruned. -/
theorem C8_broadcast_independent_witness :
    1 ∈ (broadcast_status [1, 2] (fun w => decide (w = 1))).delivered ∧
    ¬ 2 ∈ (broadcast_status [1, 2] (fun w => decide (w = 1))).remaining ∧
    1 ∈ (broadcast_status [1, 2] (fun w => decide (w = 1))).remaining := by
  refine ⟨?_, ?_, ?_⟩
  · exact (C8_broadcast_independent [1, 2] (fun w => decide (w = 1)) 1).2.1
      (by decide) (by decide)
  · exact (C8_broadcast_independent [1, 2] (fun w => decide (w = 1)) 2).2.2.1
      (by decide) (by decide)
  · exact (C8_broadcast_independent [1, 2] (fun w => decide (w = 1)) 1).2.2.2
      (by decide) (by decide)

/-- Claim C10: all durations and sample counts at the public interface are
integer floor divisions of `len(audioData)`: samples = len div 2 and duration
= len div 32000, so a session holding fewer than 32000 bytes reports duration
0; the `audio_update` event, `/recordings` list entries and `/recording/id`
summaries all use exactly these formulas. -/
theorem C10_integer_division (st : Store) (rid : Nat) (r : Session) (chunk : List Nat)
    (tr : Option String) (t : Nat) (a : List Nat) (s : Summary)
    (hc : st.current_recording_id = some rid)
    (hr : st.recordings.lookup rid = some r) :
    samplesOf a = a.length / 2 ∧
    durationOf a = a.length / 32000 ∧
    (a.length < 32000 → durationOf a = 0) ∧
    get_recording st rid = some (summaryOf rid r) ∧
    (summaryOf rid r).duration = r.audio_data.length / 32000 ∧
    (s ∈ list_recordings st → ∃ p, p ∈ st.recordings ∧ s = summaryOf p.1 p.2) ∧
    Ev.broadcastAudioUpdate rid ((r.audio_data ++ chunk).length / 2)
        ((r.audio_data ++ chunk).length / 32000) ∈ (receive_audio st chunk tr t).2.2 := by
  refine ⟨rfl, rfl, ?_, ?_, rfl, ?_, ?_⟩
  · intro h
    exact Nat.div_eq_of_lt h
  · simp [get_recording, hr]
  · intro hs
    simp only [list_recordings] at hs
    have hs' : s ∈ st.recordings.map (fun p => summaryOf p.1 p.2) :=
      (List.mergeSort_perm _ _).mem_iff.mp hs
    obtain ⟨p, hp, hps⟩ := List.mem_map.mp hs'
    exact ⟨p, hp, hps.symm⟩
  · by_cases hth : TRANSCRIPTION_CHUNK_SIZE ≤ (appendChunk r chunk).transcription_buffer.length
    · rw [receive_audio_eq_big st rid r chunk tr t hc hr hth]
      exact List.mem_append_right _ (List.mem_singleton.mpr rfl)
    · rw [receive_audio_eq_small st rid r chunk tr t hc hr hth]
      exact List.mem_singleton.mpr rfl

/-- Claim C10, witness: the division formulas at a 3-byte list and the
concrete reporting sites of the freshly started store. -/
theorem C10_integer_division_witness :
    samplesOf [1, 2, 3] = ([1, 2, 3] : List Nat).length / 2 ∧
    durationOf [1, 2, 3] = ([1, 2, 3] : List Nat).length / 32000 ∧
    durationOf [1, 2, 3] = 0 ∧
    get_recording startedStore 0 = some (summaryOf 0 (freshSession 0)) ∧
    (∃ p, p ∈ startedStore.recordings ∧ summaryOf 0 (freshSession 0) = summaryOf p.1 p.2) ∧
    Ev.broadcastAudioUpdate 0 ((((freshSession 0).audio_data ++ [7]).length) / 2)
        ((((freshSession 0).audio_data ++ [7]).length) / 32000) ∈
      (receive_audio startedStore [7] none 1).2.2 := by
  have h := C10_integer_division startedStore 0 (freshSession 0) [7] none 1 [1, 2, 3]
    (summaryOf 0 (freshSession 0)) rfl rfl
  have hmem : summaryOf 0 (freshSession 0) ∈ list_recordings startedStore := by
    simp only [list_recordings]
    refine (List.mergeSort_perm _ _).mem_iff.mpr ?_
    refine List.mem_map.mpr ⟨(0, freshSession 0), ?_, rfl⟩
    have hrec : startedStore.recordings = [(0, freshSession 0)] := rfl
    rw [hrec]
    exact List.mem_singleton.mpr rfl
  exact ⟨h.1, h.2.1, h.2.2.1 (by decide), h.2.2.2.1, h.2.2.2.2.2.1 hmem,
    h.2.2.2.2.2.2⟩

end AiNoteTaker
